import Mathlib

/-!
# GreenCart-Logistics delivery simulation engine: a shallow embedding

This file embeds the delivery assignment and simulation engine of the
GreenCart-Logistics repository (the simulation controller together with the
Mongoose model methods it calls: `Driver.getFatigueFactor`,
`Route.getTrafficMultiplier`, `Route.calculateFuelCost`,
`Route.getEstimatedTime`, `Order.isLate`, `Order.calculateDeliveryBonus`),
and proves or refutes the specification's claims about it.

Modelling conventions:
* JavaScript numbers are idealised as exact rationals (`ℚ`); `Math.round x`
  is `⌊x + 1/2⌋` (JavaScript rounds halves toward positive infinity) and
  `Math.ceil` is `⌈·⌉`.
* Timestamps (`Date` values) are integers counting milliseconds.
* The one place where the engine produces a non-number — the
  `totalEarnings` accumulator, which adds the nonexistent property
  `deliveryResult.earnings` (i.e. `undefined`) and therefore becomes `NaN`
  — is modelled with `Option ℚ`, `none` standing for `NaN`.
* Mongoose documents are records; the driver records of a run are kept in
  one list (the caller's canonical records) and the per-run driver states
  refer to them by position, mirroring the JavaScript object references, so
  that the absence of mutation of the records themselves is expressible.
-/

/-- JavaScript `Math.round`: round to the nearest integer, halves toward
positive infinity. -/
def jround (q : ℚ) : ℤ := ⌊q + 1/2⌋

/-- The `Math.round(x * 100) / 100` idiom: round to two decimal places. -/
def round2 (q : ℚ) : ℚ := (jround (q * 100) : ℚ) / 100

/-- JavaScript `+` on possibly-`NaN` operands (`none` = `NaN` or an
`undefined` operand, which `+` converts to `NaN`): any such operand makes
the result `NaN`. -/
def jsAdd : Option ℚ → Option ℚ → Option ℚ
  | some a, some b => some (a + b)
  | _, _ => none

/-- `Math.round` on a possibly-`NaN` number: `Math.round NaN = NaN`. -/
def jroundOpt : Option ℚ → Option ℤ
  | some a => some (jround a)
  | none => none

/-- A driver document (`src/models/Driver.js`), restricted to the fields the
simulation engine reads.  `_id` is abstracted to a natural number. -/
structure DriverRec where
  _id : ℕ
  name : String
  currentShiftHours : ℚ
  hourlyRate : ℚ
  rating : ℚ
  status : String
deriving Repr, DecidableEq, Inhabited

/-- A route document (`src/models/Route.js`), restricted to the fields the
simulation engine reads. -/
structure RouteRec where
  routeId : String
  distance : ℚ
  trafficLevel : String
  baseTime : ℚ
  fuelCostPerKm : ℚ
  tollCharges : ℚ
  totalCompletions : ℚ
deriving Repr, DecidableEq, Inhabited

/-- An order document (`src/models/Order.js`), restricted to the fields the
simulation engine reads.  `assignedRoute` is the populated route document
(`none` when the reference failed to populate). -/
structure OrderRec where
  orderId : String
  valueRs : ℚ
  assignedRoute : Option RouteRec
  priority : String
  status : String
  scheduledDeliveryTime : ℤ
  deliveryTimestamp : Option ℤ
  isHighValue : Bool
deriving Repr, DecidableEq, Inhabited

/-- `driverSchema.methods.getFatigueFactor` (Driver.js lines 79-84):
`1.0` up to 4 shift hours, `1.1` up to 8, `1.3` up to 12, else `1.5`. -/
def DriverRec.getFatigueFactor (d : DriverRec) : ℚ :=
  if d.currentShiftHours ≤ 4 then 1
  else if d.currentShiftHours ≤ 8 then 11/10
  else if d.currentShiftHours ≤ 12 then 13/10
  else 3/2

/-- The fatigue step function of the specification (§4.1), as a pure
function of an hour count, for stating claims that apply it to values other
than the driver record's `currentShiftHours`. -/
def fatigueFactorFn (h : ℚ) : ℚ :=
  if h ≤ 4 then 1
  else if h ≤ 8 then 11/10
  else if h ≤ 12 then 13/10
  else 3/2

/-- `routeSchema.methods.getTrafficMultiplier` (Route.js): `Low` → 1.0,
`Medium` → 1.2, `High` → 1.5, anything else → 1.0 (the `|| 1.0` default). -/
def RouteRec.getTrafficMultiplier (r : RouteRec) : ℚ :=
  if r.trafficLevel = "Low" then 1
  else if r.trafficLevel = "Medium" then 6/5
  else if r.trafficLevel = "High" then 3/2
  else 1

/-- `routeSchema.methods.calculateFuelCost` (Route.js):
`distance * fuelCostPerKm + tollCharges`. -/
def RouteRec.calculateFuelCost (r : RouteRec) : ℚ :=
  r.distance * r.fuelCostPerKm + r.tollCharges

/-- `routeSchema.methods.getEstimatedTime` (Route.js):
`Math.round(baseTime * trafficMultiplier * driverFatigueFactor)`. -/
def RouteRec.getEstimatedTime (r : RouteRec) (driverFatigueFactor : ℚ) : ℤ :=
  jround (r.baseTime * r.getTrafficMultiplier * driverFatigueFactor)

/-- `orderSchema.methods.isLate`: false when `deliveryTimestamp` is null,
else `deliveryTimestamp > scheduledDeliveryTime`.  (`scheduledDeliveryTime`
is a required field, modelled as always present; the JavaScript falsiness
check on it matters only for the epoch timestamp 0, which no claim uses.) -/
def OrderRec.isLate (o : OrderRec) : Bool :=
  match o.deliveryTimestamp with
  | none => false
  | some dt => decide (o.scheduledDeliveryTime < dt)

/-- The `hoursLate` local of `calculateDeliveryBonus`:
`Math.ceil((deliveryTimestamp - scheduledDeliveryTime) / (1000*60*60))`.
Only read on the late-delivery branch, where the timestamp is present. -/
def OrderRec.hoursLate (o : OrderRec) : ℤ :=
  match o.deliveryTimestamp with
  | none => 0
  | some dt => ⌈((dt - o.scheduledDeliveryTime : ℤ) : ℚ) / (1000 * 60 * 60)⌉

/-- `orderSchema.methods.calculateDeliveryBonus` (Order.js): 2% of value for
high-value orders, +100 when delivered on time, −50 per hour late when
delivered late, clamped below at −500. -/
def OrderRec.calculateDeliveryBonus (o : OrderRec) : ℚ :=
  let bonus : ℚ := 0
  let bonus := if o.isHighValue then bonus + o.valueRs * (2/100) else bonus
  let bonus := if o.status = "delivered" ∧ o.isLate = false then bonus + 100 else bonus
  let bonus := if o.status = "delivered" ∧ o.isLate = true then bonus - (o.hoursLate : ℚ) * 50 else bonus
  max bonus (-500)

/-- The priority weights of the engine's order sort
(`{urgent: 4, high: 3, medium: 2, low: 1}` with `|| 2` as the default for a
priority string not in the table). -/
def priorityWeight (p : String) : ℕ :=
  if p = "urgent" then 4
  else if p = "high" then 3
  else if p = "medium" then 2
  else if p = "low" then 1
  else 2

/-- The sort comparator of `performDeliverySimulation` as a boolean "may
come first" relation: `orderLe a b` iff the comparator returns ≤ 0 on
`(a, b)`, i.e. `a` has strictly greater priority weight, or equal weight
and `valueRs` at least as large. -/
def orderLe (a b : OrderRec) : Bool :=
  decide (priorityWeight b.priority < priorityWeight a.priority ∨
    (priorityWeight a.priority = priorityWeight b.priority ∧ b.valueRs ≤ a.valueRs))

/-- `orders.sort((a, b) => ...)`: ECMAScript `Array.prototype.sort` is
required to be stable and consistent with the comparator; it is modelled by
the (stable) merge sort under the comparator's ≤ relation. -/
def sortOrders (orders : List OrderRec) : List OrderRec :=
  orders.mergeSort orderLe

/-- The object returned by `simulateDelivery` (simulation controller lines
300-316), with exactly its fields.  Note there is no `earnings` field. -/
structure DeliveryResult where
  orderId : String
  driverId : ℕ
  driverName : String
  routeId : String
  distance : ℚ
  timeSpent : ℤ
  fuelCost : ℤ
  driverEarnings : ℤ
  deliveryBonus : ℤ
  profit : ℤ
  isOnTime : Bool
  scheduledTime : ℤ
  actualDeliveryTime : ℤ
  fatigueFactor : ℚ
  trafficMultiplier : ℚ
deriving Repr, DecidableEq, Inhabited

/-- The property read `deliveryResult.earnings` performed by the assignment
loop (line 162 of the controller).  The result object has no `earnings`
property — `simulateDelivery` returns `driverEarnings` instead — so the
read yields `undefined`, modelled as `none`. -/
def DeliveryResult.earnings (_ : DeliveryResult) : Option ℚ := none

/-- One per-run mutable driver state record (controller lines 136-143).
`driver` is the reference to the caller's driver document, modelled as a
position in the run's driver list. -/
structure DriverState where
  driver : ℕ
  currentHours : ℚ
  assignedOrders : List DeliveryResult
  totalEarnings : Option ℚ
  totalDistance : ℚ
  currentTime : ℤ
deriving Repr, DecidableEq, Inhabited

/-- Dereference `driverState.driver` against the run's driver records. -/
def DriverState.driverRec (st : DriverState) (drivers : List DriverRec) : DriverRec :=
  drivers.getD st.driver default

/-- `calculateDriverScore` (controller lines 249-272). -/
def calculateDriverScore (drivers : List DriverRec) (driverState : DriverState)
    (order : OrderRec) (route : RouteRec) : ℚ :=
  let driver := driverState.driverRec drivers
  let score : ℚ := 0
  let score := score + driver.rating * 20
  let fatigueFactor := driver.getFatigueFactor
  let score := score - (fatigueFactor - 1) * 30
  let score := score + (8 - driverState.currentHours) * 5
  let score := score + min (route.totalCompletions * (1/10)) 10
  let score := if order.isHighValue ∧ driver.rating < 9/2 then score - 20 else score
  score

/-- The loop of `findOptimalDriver` (controller lines 228-243) over the
driver states paired with their positions, carrying the
`(bestDriver, bestScore)` accumulator.  A driver is skipped when the
order's route is unpopulated or when `currentHours` plus the estimated
delivery time (in hours) would exceed `maxHoursPerDriver`; otherwise the
accumulator is updated exactly when the driver's score strictly exceeds
`bestScore`. -/
def findBest (drivers : List DriverRec) (order : OrderRec) (maxHoursPerDriver : ℚ) :
    List (ℕ × DriverState) → Option ℕ × ℚ → Option ℕ × ℚ
  | [], acc => acc
  | (i, driverState) :: rest, (bestDriver, bestScore) =>
    match order.assignedRoute with
    | none => findBest drivers order maxHoursPerDriver rest (bestDriver, bestScore)
    | some route =>
      let estimatedTime : ℚ :=
        (route.getEstimatedTime ((driverState.driverRec drivers).getFatigueFactor) : ℚ) / 60
      if maxHoursPerDriver < driverState.currentHours + estimatedTime then
        findBest drivers order maxHoursPerDriver rest (bestDriver, bestScore)
      else
        let score := calculateDriverScore drivers driverState order route
        if bestScore < score then
          findBest drivers order maxHoursPerDriver rest (some i, score)
        else
          findBest drivers order maxHoursPerDriver rest (bestDriver, bestScore)

/-- `findOptimalDriver` (controller lines 224-246): the position of the
selected driver state, starting from `bestDriver = null`, `bestScore = -1`. -/
def findOptimalDriver (drivers : List DriverRec) (states : List DriverState)
    (order : OrderRec) (maxHoursPerDriver : ℚ) : Option ℕ :=
  (findBest drivers order maxHoursPerDriver states.enum (none, -1)).1

/-- Eligibility of a driver state for an order, as checked inside the
`findOptimalDriver` loop: the order's route is populated and
`currentHours + estimatedTime/60 ≤ maxHoursPerDriver`. -/
def driverEligible (drivers : List DriverRec) (order : OrderRec)
    (maxHoursPerDriver : ℚ) (st : DriverState) : Prop :=
  ∃ route, order.assignedRoute = some route ∧
    st.currentHours +
      (route.getEstimatedTime ((st.driverRec drivers).getFatigueFactor) : ℚ) / 60 ≤
      maxHoursPerDriver

/-- The score `findOptimalDriver` computes for a driver state (0 when the
route is unpopulated, in which case the driver is skipped before scoring). -/
def scoreOf (drivers : List DriverRec) (order : OrderRec) (st : DriverState) : ℚ :=
  match order.assignedRoute with
  | none => 0
  | some route => calculateDriverScore drivers st order route

/-- `simulateDelivery` (controller lines 275-317).  The `route` argument is
the resolved `order.assignedRoute` (present whenever the function is
reached); the `simulationStartTime` parameter of the source is unused by
its body and omitted. -/
def simulateDelivery (drivers : List DriverRec) (driverState : DriverState)
    (order : OrderRec) (route : RouteRec) : DeliveryResult :=
  let driver := driverState.driverRec drivers
  let fatigueFactor := driver.getFatigueFactor
  let baseTime := route.baseTime
  let trafficMultiplier := route.getTrafficMultiplier
  let actualTime := jround (baseTime * trafficMultiplier * fatigueFactor)
  let fuelCost := route.calculateFuelCost
  let driverEarnings := ((actualTime : ℚ) / 60) * driver.hourlyRate
  let deliveryBonus := order.calculateDeliveryBonus
  let scheduledTime := order.scheduledDeliveryTime
  let deliveryTime := driverState.currentTime + actualTime * 60 * 1000
  let isOnTime := decide (deliveryTime ≤ scheduledTime)
  let revenue := order.valueRs * (1/10)
  let totalCosts := fuelCost + driverEarnings
  let profit := revenue - totalCosts + deliveryBonus
  { orderId := order.orderId
    driverId := driver._id
    driverName := driver.name
    routeId := route.routeId
    distance := route.distance
    timeSpent := actualTime
    fuelCost := jround fuelCost
    driverEarnings := jround driverEarnings
    deliveryBonus := jround deliveryBonus
    profit := jround profit
    isOnTime := isOnTime
    scheduledTime := scheduledTime
    actualDeliveryTime := deliveryTime
    fatigueFactor := round2 fatigueFactor
    trafficMultiplier := round2 trafficMultiplier }

/-- The full-precision `profit` local computed inside `simulateDelivery`
(before `Math.round` is applied to it), used to state the specification's
full-precision-accumulation claim. -/
def simulateDeliveryProfitFull (drivers : List DriverRec) (driverState : DriverState)
    (order : OrderRec) (route : RouteRec) : ℚ :=
  let driver := driverState.driverRec drivers
  let actualTime := jround (route.baseTime * route.getTrafficMultiplier * driver.getFatigueFactor)
  order.valueRs * (1/10) -
    (route.calculateFuelCost + ((actualTime : ℚ) / 60) * driver.hourlyRate) +
    order.calculateDeliveryBonus

/-- The mutable `results`-plus-`driverStates` state of
`performDeliverySimulation` during the assignment loop, together with the
run's canonical driver records (`drivers`, which the loop only reads). -/
structure SimAccum where
  drivers : List DriverRec
  states : List DriverState
  totalProfit : ℚ
  totalFuelCost : ℚ
  totalOrders : ℕ
  onTimeDeliveries : ℕ
  lateDeliveries : ℕ
  orderResults : List DeliveryResult
  odTotalDistance : ℚ
  odTotalTime : ℤ
deriving Repr, DecidableEq, Inhabited

/-- One iteration of the assignment loop (controller lines 156-182) for one
order: select a driver, simulate the delivery, mutate that driver's state
and the running totals; when no driver is selected the order is dropped and
nothing changes. -/
def processOrder (maxHoursPerDriver : ℚ) (acc : SimAccum) (order : OrderRec) : SimAccum :=
  match findOptimalDriver acc.drivers acc.states order maxHoursPerDriver with
  | none => acc
  | some i =>
    match order.assignedRoute, acc.states[i]? with
    | some route, some st =>
      let deliveryResult := simulateDelivery acc.drivers st order route
      let st' : DriverState :=
        { st with
          assignedOrders := st.assignedOrders ++ [deliveryResult]
          totalEarnings := jsAdd st.totalEarnings deliveryResult.earnings
          totalDistance := st.totalDistance + deliveryResult.distance
          currentHours := st.currentHours + (deliveryResult.timeSpent : ℚ) / 60
          currentTime := st.currentTime + deliveryResult.timeSpent * 60 * 1000 }
      { acc with
        states := acc.states.set i st'
        totalOrders := acc.totalOrders + 1
        totalProfit := acc.totalProfit + (deliveryResult.profit : ℚ)
        totalFuelCost := acc.totalFuelCost + (deliveryResult.fuelCost : ℚ)
        onTimeDeliveries :=
          if deliveryResult.isOnTime then acc.onTimeDeliveries + 1 else acc.onTimeDeliveries
        lateDeliveries :=
          if deliveryResult.isOnTime then acc.lateDeliveries else acc.lateDeliveries + 1
        orderResults := acc.orderResults ++ [deliveryResult]
        odTotalDistance := acc.odTotalDistance + deliveryResult.distance
        odTotalTime := acc.odTotalTime + deliveryResult.timeSpent }
    | _, _ => acc

/-- The initial driver states (controller lines 136-143): one state per
driver, `currentHours` starting at the record's `currentShiftHours`. -/
def initDriverStates (drivers : List DriverRec) (simulationStartTime : ℤ) : List DriverState :=
  drivers.enum.map fun p =>
    { driver := p.1
      currentHours := p.2.currentShiftHours
      assignedOrders := []
      totalEarnings := some 0
      totalDistance := 0
      currentTime := simulationStartTime }

/-- The initial loop state of a run. -/
def initAccum (drivers : List DriverRec) (simulationStartTime : ℤ) : SimAccum :=
  { drivers := drivers
    states := initDriverStates drivers simulationStartTime
    totalProfit := 0
    totalFuelCost := 0
    totalOrders := 0
    onTimeDeliveries := 0
    lateDeliveries := 0
    orderResults := []
    odTotalDistance := 0
    odTotalTime := 0 }

/-- The assignment loop of `performDeliverySimulation`: sort the orders and
fold `processOrder` over them. -/
def performDeliverySimulationAccum (drivers : List DriverRec) (orders : List OrderRec)
    (maxHoursPerDriver : ℚ) (simulationStartTime : ℤ) : SimAccum :=
  (sortOrders orders).foldl (processOrder maxHoursPerDriver)
    (initAccum drivers simulationStartTime)

/-- `calculateDriverEfficiency` (controller lines 320-328): summed
per-delivery (rounded) profit divided by `currentHours`, rounded to two
decimals; 0 for a driver with no assigned orders or no hours. -/
def calculateDriverEfficiency (ds : DriverState) : ℚ :=
  if ds.assignedOrders.length = 0 then 0
  else
    let totalRevenue := (ds.assignedOrders.map (·.profit)).sum
    let totalTime := ds.currentHours
    let efficiency := if 0 < totalTime then (totalRevenue : ℚ) / totalTime else 0
    round2 efficiency

/-- One entry of `results.driverPerformance` (controller lines 189-199). -/
structure DriverPerformanceRec where
  driverId : ℕ
  driverName : String
  ordersCompleted : ℕ
  totalEarnings : Option ℤ
  totalDistance : ℚ
  hoursWorked : ℚ
  efficiency : ℚ
  onTimeRate : ℚ
deriving Repr, DecidableEq, Inhabited

/-- The final `results` object of `performDeliverySimulation`. -/
structure SimResults where
  totalProfit : ℤ
  totalFuelCost : ℤ
  totalOrders : ℕ
  onTimeDeliveries : ℕ
  lateDeliveries : ℕ
  driversUsed : ℕ
  efficiencyScore : ℚ
  driverPerformance : List DriverPerformanceRec
  orderResults : List DeliveryResult
  odTotalDistance : ℚ
  odTotalTime : ℤ
  averageUtilization : ℚ
deriving Repr, DecidableEq, Inhabited

/-- The aggregation phase of `performDeliverySimulation` (controller lines
184-220): per-driver performance for every state with at least one
assigned order, overall rates, and the final rounding of the totals. -/
def aggregateResults (acc : SimAccum) (totalPossibleOrders : ℕ)
    (maxHoursPerDriver : ℚ) : SimResults :=
  let used := acc.states.filter fun ds => decide (0 < ds.assignedOrders.length)
  let driversUsed := used.length
  let driverPerformance := used.map fun ds =>
    { driverId := (ds.driverRec acc.drivers)._id
      driverName := (ds.driverRec acc.drivers).name
      ordersCompleted := ds.assignedOrders.length
      totalEarnings := jroundOpt ds.totalEarnings
      totalDistance := round2 ds.totalDistance
      hoursWorked := round2 ds.currentHours
      efficiency := calculateDriverEfficiency ds
      onTimeRate :=
        ((ds.assignedOrders.filter (·.isOnTime)).length : ℚ) /
          (ds.assignedOrders.length : ℚ) * 100 : DriverPerformanceRec }
  let completionRate := (acc.totalOrders : ℚ) / (totalPossibleOrders : ℚ) * 100
  let onTimeRate :=
    if 0 < acc.totalOrders then (acc.onTimeDeliveries : ℚ) / (acc.totalOrders : ℚ) * 100 else 0
  let utilizationRate :=
    if 0 < driversUsed then
      (acc.odTotalTime : ℚ) / ((driversUsed : ℚ) * maxHoursPerDriver * 60) * 100
    else 0
  { totalProfit := jround acc.totalProfit
    totalFuelCost := jround acc.totalFuelCost
    totalOrders := acc.totalOrders
    onTimeDeliveries := acc.onTimeDeliveries
    lateDeliveries := acc.lateDeliveries
    driversUsed := driversUsed
    efficiencyScore := round2 (completionRate * (2/5) + onTimeRate * (2/5) + utilizationRate * (1/5))
    driverPerformance := driverPerformance
    orderResults := acc.orderResults
    odTotalDistance := acc.odTotalDistance
    odTotalTime := acc.odTotalTime
    averageUtilization := round2 utilizationRate }

/-- `performDeliverySimulation` (controller lines 116-221). -/
def performDeliverySimulation (drivers : List DriverRec) (orders : List OrderRec)
    (maxHoursPerDriver : ℚ) (simulationStartTime : ℤ) : SimResults :=
  aggregateResults (performDeliverySimulationAccum drivers orders maxHoursPerDriver simulationStartTime)
    orders.length maxHoursPerDriver

/-- The module-level mutable state of the simulation controller:
`simulationInProgress` and the cached `simulationResults`. -/
structure ServerState where
  simulationInProgress : Bool
  simulationResults : Option SimResults
deriving Repr, DecidableEq, Inhabited

/-- `runSimulation` (controller lines 13-92) as a state machine step
returning the HTTP status of the response and the new module state.
`availableDrivers` and `pendingOrders` are the results of the two external
database queries (`status: "active"` drivers, `status: "pending"` orders);
`throwDuringRun` is an oracle saying whether one of the awaited calls
inside the `try` block throws after the flag has been taken, in which case
the `catch` clause clears the flag and leaves the cached results alone.
The JavaScript falsiness checks `!numberOfDrivers` / `!maxHoursPerDriver`
are modelled as equality with 0. -/
def runSimulation (st : ServerState) (numberOfDrivers maxHoursPerDriver : ℚ)
    (startTime : ℤ) (availableDrivers : List DriverRec) (pendingOrders : List OrderRec)
    (throwDuringRun : Bool) : ℕ × ServerState :=
  if numberOfDrivers = 0 ∨ numberOfDrivers < 1 ∨ 50 < numberOfDrivers then
    (400, st)
  else if maxHoursPerDriver = 0 ∨ maxHoursPerDriver < 1 ∨ 24 < maxHoursPerDriver then
    (400, st)
  else if st.simulationInProgress then
    (409, st)
  else if throwDuringRun then
    (500, { st with simulationInProgress := false })
  else if availableDrivers.length = 0 then
    (400, { st with simulationInProgress := false })
  else if pendingOrders.length = 0 then
    (400, { st with simulationInProgress := false })
  else
    let results :=
      performDeliverySimulation availableDrivers pendingOrders maxHoursPerDriver startTime
    (200, { simulationInProgress := false, simulationResults := some results })

/-- Modelled from the spec: "accumulate in full precision, round only final
totals".  Runs the very same assignment loop but additionally accumulates
the un-rounded per-delivery profit and fuel cost, for comparison with the
engine's accumulated totals. -/
def processOrderFullPrecision (maxHoursPerDriver : ℚ) (p : SimAccum × ℚ × ℚ)
    (order : OrderRec) : SimAccum × ℚ × ℚ :=
  match findOptimalDriver p.1.drivers p.1.states order maxHoursPerDriver with
  | none => (processOrder maxHoursPerDriver p.1 order, p.2)
  | some i =>
    match order.assignedRoute, p.1.states[i]? with
    | some route, some st =>
      (processOrder maxHoursPerDriver p.1 order,
        p.2.1 + simulateDeliveryProfitFull p.1.drivers st order route,
        p.2.2 + route.calculateFuelCost)
    | _, _ => (processOrder maxHoursPerDriver p.1 order, p.2)

/-- Modelled from the spec: the full-precision sums of per-delivery profit
and fuel cost across all simulated deliveries of a run. -/
def specFullPrecisionTotals (drivers : List DriverRec) (orders : List OrderRec)
    (maxHoursPerDriver : ℚ) (simulationStartTime : ℤ) : ℚ × ℚ :=
  ((sortOrders orders).foldl (processOrderFullPrecision maxHoursPerDriver)
    (initAccum drivers simulationStartTime, 0, 0)).2

/-! ### Concrete instances used by counterexamples and witnesses -/

/-- A fresh, top-rated driver (no shift hours yet). -/
def exDriverFresh : DriverRec :=
  { _id := 2, name := "Asha", currentShiftHours := 0, hourlyRate := 150, rating := 5,
    status := "active" }

/-- A low-rated driver deep into a shift (13 h, fatigue factor 1.5). -/
def exDriverLowRating : DriverRec :=
  { _id := 1, name := "Bela", currentShiftHours := 13, hourlyRate := 100, rating := 1,
    status := "active" }

/-- A driver at exactly 4 shift hours (fatigue factor still 1.0). -/
def exDriverShift4 : DriverRec :=
  { _id := 3, name := "Chand", currentShiftHours := 4, hourlyRate := 120, rating := 4,
    status := "active" }

/-- A low-traffic route taking 60 base minutes. -/
def exRouteLow : RouteRec :=
  { routeId := "R1", distance := 5, trafficLevel := "Low", baseTime := 60,
    fuelCostPerKm := 17/2, tollCharges := 0, totalCompletions := 0 }

/-- A short route whose exact fuel cost is 10.4 Rs (1 km at 10.4 Rs/km). -/
def exRouteCheap : RouteRec :=
  { routeId := "R2", distance := 1, trafficLevel := "Low", baseTime := 10,
    fuelCostPerKm := 52/5, tollCharges := 0, totalCompletions := 0 }

/-- A pending medium-priority order on `exRouteLow`. -/
def exOrderMedium : OrderRec :=
  { orderId := "O1", valueRs := 500, assignedRoute := some exRouteLow,
    priority := "medium", status := "pending", scheduledDeliveryTime := 1000000000,
    deliveryTimestamp := none, isHighValue := false }

/-- A pending order on `exRouteCheap`; `exOrderB` has identical priority and
value. -/
def exOrderA : OrderRec :=
  { orderId := "OA", valueRs := 500, assignedRoute := some exRouteCheap,
    priority := "medium", status := "pending", scheduledDeliveryTime := 1000000000,
    deliveryTimestamp := none, isHighValue := false }

/-- A second pending order with the same priority and value as `exOrderA`. -/
def exOrderB : OrderRec :=
  { orderId := "OB", valueRs := 500, assignedRoute := some exRouteCheap,
    priority := "medium", status := "pending", scheduledDeliveryTime := 1000000000,
    deliveryTimestamp := none, isHighValue := false }

/-- The per-run state of `exDriverLowRating` at the start of a run. -/
def exStateLowRating : DriverState :=
  { driver := 0, currentHours := 13, assignedOrders := [], totalEarnings := some 0,
    totalDistance := 0, currentTime := 0 }

/-- A mid-run state of `exDriverShift4` after two simulated hours:
`currentHours` is 6 while the record's `currentShiftHours` is still 4. -/
def exStateSixHours : DriverState :=
  { driver := 0, currentHours := 6, assignedOrders := [], totalEarnings := some 0,
    totalDistance := 0, currentTime := 0 }

/-! ### Basic lemmas -/

/-- `Math.round` of an integer is that integer. -/
theorem jround_intCast (n : ℤ) : jround (n : ℚ) = n := by
  rw [jround, add_comm, Int.floor_add_int]
  norm_num

/-- `Driver.getFatigueFactor` is the fatigue step function applied to the
record's `currentShiftHours`. -/
theorem getFatigueFactor_eq_fn (d : DriverRec) :
    d.getFatigueFactor = fatigueFactorFn d.currentShiftHours := rfl

/-- An invariant preserved by each loop iteration holds after the fold. -/
theorem foldl_preserves {α : Type} {σ : Type} (f : σ → α → σ) (P : σ → Prop)
    (h : ∀ s a, P s → P (f s a)) : ∀ (l : List α) (s : σ), P s → P (l.foldl f s) := by
  intro l
  induction l with
  | nil => exact fun s hs => hs
  | cons a l ih => exact fun s hs => ih _ (h s a hs)

theorem le_fst_of_mem_enumFrom {α : Type} :
    ∀ (l : List α) (n : ℕ) (p : ℕ × α), p ∈ l.enumFrom n → n ≤ p.1 := by
  intro l
  induction l with
  | nil => intro n p hp; simp at hp
  | cons a l ih =>
    intro n p hp
    rw [List.enumFrom_cons] at hp
    rcases List.mem_cons.mp hp with h | h
    · subst h; exact le_refl n
    · exact (Nat.le_succ n).trans (ih (n + 1) p h)

theorem pairwise_fst_lt_enumFrom {α : Type} :
    ∀ (l : List α) (n : ℕ), (l.enumFrom n).Pairwise fun p q => p.1 < q.1 := by
  intro l
  induction l with
  | nil => intro n; exact List.Pairwise.nil
  | cons a l ih =>
    intro n
    rw [List.enumFrom_cons]
    refine List.Pairwise.cons ?_ (ih (n + 1))
    intro p hp
    exact Nat.lt_of_lt_of_le (Nat.lt_succ_self n) (le_fst_of_mem_enumFrom l (n + 1) p hp)

theorem pairwise_fst_lt_enum {α : Type} (l : List α) :
    l.enum.Pairwise fun p q => p.1 < q.1 :=
  pairwise_fst_lt_enumFrom l 0

/-- When the order's route is populated, eligibility is exactly the
hour-budget test of `findOptimalDriver`. -/
theorem driverEligible_iff_of_route {drivers : List DriverRec} {o : OrderRec}
    {maxH : ℚ} {st : DriverState} {route : RouteRec} (h : o.assignedRoute = some route) :
    driverEligible drivers o maxH st ↔
      st.currentHours +
        (route.getEstimatedTime ((st.driverRec drivers).getFatigueFactor) : ℚ) / 60 ≤ maxH := by
  constructor
  · rintro ⟨r', hr', hle⟩
    rw [h] at hr'
    exact Option.some_injective _ hr' ▸ hle
  · intro hle
    exact ⟨route, h, hle⟩

theorem not_driverEligible_of_route_none {drivers : List DriverRec} {o : OrderRec}
    {maxH : ℚ} {st : DriverState} (h : o.assignedRoute = none) :
    ¬ driverEligible drivers o maxH st := by
  rintro ⟨r', hr', -⟩
  rw [h] at hr'
  exact Option.noConfusion hr'

theorem scoreOf_of_route {drivers : List DriverRec} {o : OrderRec} {st : DriverState}
    {route : RouteRec} (h : o.assignedRoute = some route) :
    scoreOf drivers o st = calculateDriverScore drivers st o route := by
  unfold scoreOf
  rw [h]

/-- Each loop iteration leaves the run's canonical driver records alone:
every mutation of `processOrder` targets the per-run state records. -/
theorem processOrder_drivers (maxHoursPerDriver : ℚ) (acc : SimAccum) (o : OrderRec) :
    (processOrder maxHoursPerDriver acc o).drivers = acc.drivers := by
  rcases hfod : findOptimalDriver acc.drivers acc.states o maxHoursPerDriver with _ | i
  · simp [processOrder, hfod]
  · rcases hroute : o.assignedRoute with _ | route
    · simp [processOrder, hfod, hroute]
    · rcases hst : acc.states[i]? with _ | st
      · simp [processOrder, hfod, hroute, hst]
      · simp [processOrder, hfod, hroute, hst]

/-- **C9.** The assignment loop never mutates the fields of the input driver
records: after a full run the canonical records equal the input records —
in particular every driver's `currentShiftHours` is what it was before the
run.  All cumulative-hours/earnings/distance/time mutation lands on the
per-run `DriverState` records created at the start of the run. -/
theorem simulationDoesNotMutateDriverRecords (drivers : List DriverRec)
    (orders : List OrderRec) (maxHoursPerDriver : ℚ) (simulationStartTime : ℤ) :
    (performDeliverySimulationAccum drivers orders maxHoursPerDriver
        simulationStartTime).drivers = drivers ∧
    (performDeliverySimulationAccum drivers orders maxHoursPerDriver
        simulationStartTime).drivers.map (·.currentShiftHours) =
      drivers.map (·.currentShiftHours) := by
  have h : (performDeliverySimulationAccum drivers orders maxHoursPerDriver
      simulationStartTime).drivers = drivers := by
    unfold performDeliverySimulationAccum
    exact foldl_preserves (processOrder maxHoursPerDriver) (fun acc => acc.drivers = drivers)
      (fun acc o hacc => (processOrder_drivers maxHoursPerDriver acc o).trans hacc)
      (sortOrders orders) (initAccum drivers simulationStartTime) rfl
  exact ⟨h, by rw [h]⟩

/-- **C6 (amended).** When no simulation is in progress at invocation time
(`simulationInProgress` initially false), every terminating invocation of
`runSimulation` — successful completion, parameter-validation rejection,
no-drivers or no-orders precondition rejection, or an internal exception
during the run — leaves `simulationInProgress` false. -/
theorem runSimulationClearsFlag (st : ServerState) (numberOfDrivers maxHoursPerDriver : ℚ)
    (startTime : ℤ) (availableDrivers : List DriverRec) (pendingOrders : List OrderRec)
    (throwDuringRun : Bool) (h : st.simulationInProgress = false) :
    ((runSimulation st numberOfDrivers maxHoursPerDriver startTime availableDrivers
        pendingOrders throwDuringRun).2).simulationInProgress = false := by
  unfold runSimulation
  split_ifs <;> simp_all

/-- Witness for the amended C6 at a concrete invocation. -/
theorem runSimulationClearsFlag_witness :
    ((runSimulation { simulationInProgress := false, simulationResults := none } 5 8 0 [] []
        false).2).simulationInProgress = false :=
  runSimulationClearsFlag _ 5 8 0 [] [] false rfl

/-- **C6 counterexample.** An invocation with out-of-range `numberOfDrivers`
made while another run holds the flag terminates as a parameter-validation
rejection (HTTP 400, not the 409 conflict) and leaves the flag still set,
so it is not the case that the flag is false after every terminating
parameter-validation rejection. -/
theorem runSimulationFlagCounterexample :
    (runSimulation { simulationInProgress := true, simulationResults := none } 0 8 0 [] []
        false).1 = 400 ∧
    (runSimulation { simulationInProgress := true, simulationResults := none } 0 8 0 [] []
        false).1 ≠ 409 ∧
    ((runSimulation { simulationInProgress := true, simulationResults := none } 0 8 0 [] []
        false).2).simulationInProgress = true := by
  norm_num [runSimulation]

/-- **C7 (amended).** Invoked with parameters that pass validation while the
flag is already set, `runSimulation` returns the 409 conflict rejection
immediately (no queueing) and the module state is returned unchanged: the
flag is still set and the cached `simulationResults` are untouched. -/
theorem conflictRejectionLeavesStateUnchanged (st : ServerState)
    (numberOfDrivers maxHoursPerDriver : ℚ) (startTime : ℤ)
    (availableDrivers : List DriverRec) (pendingOrders : List OrderRec)
    (throwDuringRun : Bool) (hflag : st.simulationInProgress = true)
    (hn : ¬(numberOfDrivers = 0 ∨ numberOfDrivers < 1 ∨ 50 < numberOfDrivers))
    (hm : ¬(maxHoursPerDriver = 0 ∨ maxHoursPerDriver < 1 ∨ 24 < maxHoursPerDriver)) :
    runSimulation st numberOfDrivers maxHoursPerDriver startTime availableDrivers
      pendingOrders throwDuringRun = (409, st) := by
  unfold runSimulation
  rw [if_neg hn, if_neg hm, if_pos hflag]

/-- Witness for the amended C7 at a concrete invocation. -/
theorem conflictRejection_witness :
    runSimulation { simulationInProgress := true, simulationResults := none } 5 8 0 [] []
        false = (409, { simulationInProgress := true, simulationResults := none }) :=
  conflictRejectionLeavesStateUnchanged _ 5 8 0 [] [] false rfl
    (by norm_num) (by norm_num)

/-- **C7 counterexample.** With the flag set but an out-of-range
`numberOfDrivers`, the invocation is rejected with the validation status
400, not the claimed conflict status 409: the conflict check runs only
after parameter validation. -/
theorem conflictRejectionCounterexample :
    (runSimulation { simulationInProgress := true, simulationResults := none } 0 8 0
        [] [] false).1 = 400 ∧
    ¬ (runSimulation { simulationInProgress := true, simulationResults := none } 0 8 0
        [] [] false).1 = 409 := by
  norm_num [runSimulation]

/-- **C10.** Every order the delivery simulator sees still has status
`pending` (the engine's query filters on it), so `calculateDeliveryBonus`
reduces to exactly the high-value term — `valueRs * 0.02` for a high-value
order and 0 otherwise — which is nonnegative (so the −500 clamp is inert);
the flat +100 on-time bonus and the −50-per-hour late penalty never
contribute, and the simulated delivery's `deliveryBonus` field is the
rounded high-value term regardless of the delivery's `isOnTime` flag. -/
theorem pendingOrderBonusIsHighValueTermOnly (o : OrderRec) (hstatus : o.status = "pending")
    (hval : 0 ≤ o.valueRs) :
    o.calculateDeliveryBonus = (if o.isHighValue then o.valueRs * (2/100) else 0) ∧
    0 ≤ o.calculateDeliveryBonus ∧
    ∀ (drivers : List DriverRec) (st : DriverState) (route : RouteRec),
      (simulateDelivery drivers st o route).deliveryBonus =
        jround (if o.isHighValue then o.valueRs * (2/100) else 0) := by
  have hterm : (0 : ℚ) ≤ if o.isHighValue then o.valueRs * (2/100) else 0 := by
    split_ifs
    · exact mul_nonneg hval (by norm_num)
    · exact le_refl 0
  have hnotdel : ¬ (o.status = "delivered" ∧ o.isLate = false) := by
    rintro ⟨h1, -⟩
    rw [hstatus] at h1
    exact absurd h1 (by decide)
  have hnotdel2 : ¬ (o.status = "delivered" ∧ o.isLate = true) := by
    rintro ⟨h1, -⟩
    rw [hstatus] at h1
    exact absurd h1 (by decide)
  have hbonus : o.calculateDeliveryBonus = (if o.isHighValue then o.valueRs * (2/100) else 0) := by
    unfold OrderRec.calculateDeliveryBonus
    simp only [if_neg hnotdel, if_neg hnotdel2, zero_add]
    rcases hh : o.isHighValue with _ | _
    · simp only [hh, Bool.false_eq_true, if_false]
      exact max_eq_left (by norm_num)
    · simp only [hh, if_true]
      exact max_eq_left
        (le_trans (by norm_num : (-500 : ℚ) ≤ 0) (mul_nonneg hval (by norm_num)))
  refine ⟨hbonus, ?_, ?_⟩
  · rw [hbonus]; exact hterm
  · intro drivers st route
    have h2 : (simulateDelivery drivers st o route).deliveryBonus =
        jround o.calculateDeliveryBonus := rfl
    rw [h2, hbonus]

/-- Witness for C10: a concrete high-value pending order gets exactly the
2% bonus (Rs 300 on Rs 15000). -/
theorem pendingOrderBonus_witness :
    OrderRec.calculateDeliveryBonus
      { orderId := "O3", valueRs := 15000, assignedRoute := none, priority := "high",
        status := "pending", scheduledDeliveryTime := 0, deliveryTimestamp := none,
        isHighValue := true } = 300 := by
  have h := pendingOrderBonusIsHighValueTermOnly
    { orderId := "O3", valueRs := 15000, assignedRoute := none, priority := "high",
      status := "pending", scheduledDeliveryTime := 0, deliveryTimestamp := none,
      isHighValue := true } rfl (by norm_num)
  rw [h.1]
  norm_num

/-- Characterisation of the `findOptimalDriver` accumulator loop on any
suffix of enumerated driver states: either no eligible driver beats the
carried `bestScore` and the accumulator survives unchanged, or the result
is the first eligible driver achieving the maximal score, which strictly
beats the carried one. -/
theorem findBest_char (drivers : List DriverRec) (o : OrderRec) (maxH : ℚ) :
    ∀ (l : List (ℕ × DriverState)) (b : Option ℕ) (s : ℚ),
      l.Pairwise (fun p q => p.1 < q.1) →
      (findBest drivers o maxH l (b, s) = (b, s) ∧
        ∀ p ∈ l, driverEligible drivers o maxH p.2 → scoreOf drivers o p.2 ≤ s) ∨
      (∃ i st, (i, st) ∈ l ∧ driverEligible drivers o maxH st ∧
        s < scoreOf drivers o st ∧
        findBest drivers o maxH l (b, s) = (some i, scoreOf drivers o st) ∧
        (∀ p ∈ l, driverEligible drivers o maxH p.2 →
          scoreOf drivers o p.2 ≤ scoreOf drivers o st) ∧
        (∀ p ∈ l, driverEligible drivers o maxH p.2 → p.1 < i →
          scoreOf drivers o p.2 < scoreOf drivers o st)) := by
  intro l
  induction l with
  | nil =>
    intro b s _
    left
    exact ⟨rfl, by simp⟩
  | cons hd rest ih =>
    intro b s hpw
    obtain ⟨j, st0⟩ := hd
    have hhead := (List.pairwise_cons.mp hpw).1
    have hpw' := (List.pairwise_cons.mp hpw).2
    rcases hroute : o.assignedRoute with _ | route
    · have hstep : findBest drivers o maxH ((j, st0) :: rest) (b, s) =
          findBest drivers o maxH rest (b, s) := by
        simp [findBest, hroute]
      rcases ih b s hpw' with ⟨heq, hbound⟩ | ⟨i, st, hmem, helig, hlt, heq, hmax, hfirst⟩
      · left
        refine ⟨hstep.trans heq, ?_⟩
        intro p _ he
        exact absurd he (not_driverEligible_of_route_none hroute)
      · right
        exact ⟨i, st, List.mem_cons_of_mem _ hmem, helig, hlt, hstep.trans heq,
          fun p _ he => absurd he (not_driverEligible_of_route_none hroute),
          fun p _ he _ => absurd he (not_driverEligible_of_route_none hroute)⟩
    · by_cases hhours : maxH < st0.currentHours +
        (route.getEstimatedTime ((st0.driverRec drivers).getFatigueFactor) : ℚ) / 60
      · -- the head driver is over the hour budget and is skipped
        have hstep : findBest drivers o maxH ((j, st0) :: rest) (b, s) =
            findBest drivers o maxH rest (b, s) := by
          simp [findBest, hroute, hhours]
        have hnelig : ¬ driverEligible drivers o maxH st0 := by
          rw [driverEligible_iff_of_route hroute]
          exact not_le.mpr hhours
        rcases ih b s hpw' with ⟨heq, hbound⟩ | ⟨i, st, hmem, helig, hlt, heq, hmax, hfirst⟩
        · left
          refine ⟨hstep.trans heq, ?_⟩
          intro p hp he
          rcases List.mem_cons.mp hp with h | h
          · subst h; exact absurd he hnelig
          · exact hbound p h he
        · right
          refine ⟨i, st, List.mem_cons_of_mem _ hmem, helig, hlt, hstep.trans heq, ?_, ?_⟩
          · intro p hp he
            rcases List.mem_cons.mp hp with h | h
            · subst h; exact absurd he hnelig
            · exact hmax p h he
          · intro p hp he hpi
            rcases List.mem_cons.mp hp with h | h
            · subst h; exact absurd he hnelig
            · exact hfirst p h he hpi
      · -- the head driver fits in the hour budget
        have helig0 : driverEligible drivers o maxH st0 :=
          (driverEligible_iff_of_route hroute).mpr (not_lt.mp hhours)
        have hscore0 : scoreOf drivers o st0 = calculateDriverScore drivers st0 o route :=
          scoreOf_of_route hroute
        by_cases hbeat : s < calculateDriverScore drivers st0 o route
        · -- the head strictly beats the carried best score
          have hstep : findBest drivers o maxH ((j, st0) :: rest) (b, s) =
              findBest drivers o maxH rest
                (some j, calculateDriverScore drivers st0 o route) := by
            simp [findBest, hroute, hhours, hbeat]
          rcases ih (some j) (calculateDriverScore drivers st0 o route) hpw' with
            ⟨heq, hbound⟩ | ⟨i, st, hmem, helig, hlt, heq, hmax, hfirst⟩
          · right
            refine ⟨j, st0, List.mem_cons_self _ _, helig0, ?_, ?_, ?_, ?_⟩
            · rw [hscore0]; exact hbeat
            · rw [hstep, heq, hscore0]
            · intro p hp he
              rcases List.mem_cons.mp hp with h | h
              · subst h; rw [hscore0]
              · exact (hbound p h he).trans (le_of_eq hscore0.symm)
            · intro p hp he hpj
              rcases List.mem_cons.mp hp with h | h
              · subst h; exact absurd hpj (lt_irrefl _)
              · exact absurd hpj (hhead p h).asymm
          · right
            refine ⟨i, st, List.mem_cons_of_mem _ hmem, helig,
              lt_trans hbeat hlt, hstep.trans heq, ?_, ?_⟩
            · intro p hp he
              rcases List.mem_cons.mp hp with h | h
              · subst h; rw [hscore0]; exact le_of_lt hlt
              · exact hmax p h he
            · intro p hp he hpi
              rcases List.mem_cons.mp hp with h | h
              · subst h; rw [hscore0]; exact hlt
              · exact hfirst p h he hpi
        · -- the head does not beat the carried best score
          have hstep : findBest drivers o maxH ((j, st0) :: rest) (b, s) =
              findBest drivers o maxH rest (b, s) := by
            simp [findBest, hroute, hhours, hbeat]
          rcases ih b s hpw' with ⟨heq, hbound⟩ | ⟨i, st, hmem, helig, hlt, heq, hmax, hfirst⟩
          · left
            refine ⟨hstep.trans heq, ?_⟩
            intro p hp he
            rcases List.mem_cons.mp hp with h | h
            · subst h; rw [hscore0]; exact not_lt.mp hbeat
            · exact hbound p h he
          · right
            refine ⟨i, st, List.mem_cons_of_mem _ hmem, helig, hlt, hstep.trans heq, ?_, ?_⟩
            · intro p hp he
              rcases List.mem_cons.mp hp with h | h
              · subst h; rw [hscore0]; exact le_of_lt (lt_of_le_of_lt (not_lt.mp hbeat) hlt)
              · exact hmax p h he
            · intro p hp he hpi
              rcases List.mem_cons.mp hp with h | h
              · subst h; rw [hscore0]; exact lt_of_le_of_lt (not_lt.mp hbeat) hlt
              · exact hfirst p h he hpi

/-- `findOptimalDriver` returns `null` exactly when no driver state is both
eligible and scoring strictly above the initial `bestScore` of −1. -/
theorem findOptimalDriver_none_iff (drivers : List DriverRec) (states : List DriverState)
    (o : OrderRec) (maxHoursPerDriver : ℚ) :
    findOptimalDriver drivers states o maxHoursPerDriver = none ↔
      ∀ st ∈ states, ¬(driverEligible drivers o maxHoursPerDriver st ∧
        -1 < scoreOf drivers o st) := by
  have hchar := findBest_char drivers o maxHoursPerDriver states.enum none (-1)
    (pairwise_fst_lt_enum states)
  constructor
  · intro hres st hst hc
    rcases hchar with ⟨-, hbound⟩ | ⟨i, st', hmem, -, -, heq, -, -⟩
    · obtain ⟨k, hk, hkeq⟩ := List.mem_iff_getElem.mp hst
      have hkp : (k, st) ∈ states.enum :=
        List.mem_enum_iff_getElem?.mpr (List.getElem?_eq_some_iff.mpr ⟨hk, hkeq⟩)
      exact absurd (hbound (k, st) hkp hc.1) (not_le.mpr hc.2)
    · rw [findOptimalDriver, heq] at hres
      exact Option.noConfusion hres
  · intro hbound
    rcases hchar with ⟨heq, -⟩ | ⟨i, st, hmem, helig, hlt, heq, -, -⟩
    · rw [findOptimalDriver, heq]
    · have hstmem : st ∈ states := by
        have := List.mem_enum_iff_getElem?.mp hmem
        exact List.getElem?_mem this
      exact absurd ⟨helig, hlt⟩ (hbound st hstmem)

/-- When `findOptimalDriver` selects position `i`, the state there is
eligible, scores above −1, scores at least every eligible state, and
strictly above every eligible state at an earlier position. -/
theorem findOptimalDriver_some (drivers : List DriverRec) (states : List DriverState)
    (o : OrderRec) (maxHoursPerDriver : ℚ) (i : ℕ)
    (h : findOptimalDriver drivers states o maxHoursPerDriver = some i) :
    ∃ st, states[i]? = some st ∧ driverEligible drivers o maxHoursPerDriver st ∧
      -1 < scoreOf drivers o st ∧
      (∀ (j : ℕ) (st' : DriverState), states[j]? = some st' →
        driverEligible drivers o maxHoursPerDriver st' →
        scoreOf drivers o st' ≤ scoreOf drivers o st) ∧
      (∀ (j : ℕ) (st' : DriverState), states[j]? = some st' →
        driverEligible drivers o maxHoursPerDriver st' →
        j < i → scoreOf drivers o st' < scoreOf drivers o st) := by
  have hchar := findBest_char drivers o maxHoursPerDriver states.enum none (-1)
    (pairwise_fst_lt_enum states)
  rcases hchar with ⟨heq, -⟩ | ⟨i', st, hmem, helig, hlt, heq, hmax, hfirst⟩
  · rw [findOptimalDriver, heq] at h
    exact Option.noConfusion h
  · rw [findOptimalDriver, heq] at h
    obtain rfl : i' = i := Option.some_injective _ h
    refine ⟨st, List.mem_enum_iff_getElem?.mp hmem, helig, hlt, ?_, ?_⟩
    · intro j st' hj he
      exact hmax (j, st') (List.mem_enum_iff_getElem?.mpr hj) he
    · intro j st' hj he hji
      exact hfirst (j, st') (List.mem_enum_iff_getElem?.mpr hj) he hji

/-- When a driver is selected, `processOrder` updates exactly that driver's
state: result appended, `totalEarnings` summed with the undefined
`earnings` read, distance/hours/time accumulated. -/
theorem processOrder_states_of_some (maxHoursPerDriver : ℚ) (acc : SimAccum) (o : OrderRec)
    (i : ℕ) (st : DriverState) (route : RouteRec)
    (hfod : findOptimalDriver acc.drivers acc.states o maxHoursPerDriver = some i)
    (hroute : o.assignedRoute = some route) (hst : acc.states[i]? = some st) :
    (processOrder maxHoursPerDriver acc o).states = acc.states.set i
      { st with
        assignedOrders := st.assignedOrders ++ [simulateDelivery acc.drivers st o route]
        totalEarnings := jsAdd st.totalEarnings none
        totalDistance := st.totalDistance + (simulateDelivery acc.drivers st o route).distance
        currentHours := st.currentHours +
          ((simulateDelivery acc.drivers st o route).timeSpent : ℚ) / 60
        currentTime := st.currentTime +
          (simulateDelivery acc.drivers st o route).timeSpent * 60 * 1000 } := by
  simp [processOrder, hfod, hroute, hst, DeliveryResult.earnings]

/-- **C1.** The assignment engine never assigns a driver past
`maxHoursPerDriver`: any selected driver passed the eligibility check (a
driver whose estimated delivery time would push `currentHours` past the
budget is skipped), the selected driver's `currentHours` after the
assignment — incremented by `timeSpent/60`, where `timeSpent` coincides
with the estimated time used by the check — still fits within
`maxHoursPerDriver`, and in a full run every driver state that received at
least one order ends within `maxHoursPerDriver`. -/
theorem driverNeverAssignedPastMaxHours (maxHoursPerDriver : ℚ) (acc : SimAccum)
    (o : OrderRec) (i : ℕ)
    (h : findOptimalDriver acc.drivers acc.states o maxHoursPerDriver = some i) :
    driverEligible acc.drivers o maxHoursPerDriver (acc.states.getD i default) ∧
    ((processOrder maxHoursPerDriver acc o).states.getD i default).currentHours ≤
      maxHoursPerDriver ∧
    ∀ (drivers : List DriverRec) (orders : List OrderRec) (t0 : ℤ),
      ∀ st ∈ (performDeliverySimulationAccum drivers orders maxHoursPerDriver t0).states,
        st.assignedOrders ≠ [] → st.currentHours ≤ maxHoursPerDriver := by
  obtain ⟨st, hst, helig, -, -, -⟩ :=
    findOptimalDriver_some acc.drivers acc.states o maxHoursPerDriver i h
  obtain ⟨route, hroute, hle⟩ := helig
  have hlen : i < acc.states.length := (List.getElem?_eq_some_iff.mp hst).1
  have hg : acc.states.getD i default = st := by
    rw [List.getD_eq_getElem?_getD, hst]; rfl
  have htime : (simulateDelivery acc.drivers st o route).timeSpent =
      route.getEstimatedTime ((st.driverRec acc.drivers).getFatigueFactor) := rfl
  refine ⟨hg ▸ ⟨route, hroute, hle⟩, ?_, ?_⟩
  · rw [processOrder_states_of_some maxHoursPerDriver acc o i st route h hroute hst,
      List.getD_eq_getElem?_getD, List.getElem?_set_self (by simpa using hlen)]
    show st.currentHours + ((simulateDelivery acc.drivers st o route).timeSpent : ℚ) / 60 ≤
      maxHoursPerDriver
    rw [htime]
    exact hle
  · intro drivers orders t0
    unfold performDeliverySimulationAccum
    refine foldl_preserves (processOrder maxHoursPerDriver)
      (fun a => ∀ st' ∈ a.states, st'.assignedOrders ≠ [] →
        st'.currentHours ≤ maxHoursPerDriver) ?_ (sortOrders orders)
      (initAccum drivers t0) ?_
    · intro a o2 ha
      rcases hfod2 : findOptimalDriver a.drivers a.states o2 maxHoursPerDriver with _ | k
      · simpa [processOrder, hfod2] using ha
      · obtain ⟨stk, hstk, heligk, -, -, -⟩ :=
          findOptimalDriver_some a.drivers a.states o2 maxHoursPerDriver k hfod2
        obtain ⟨routek, hroutek, hlek⟩ := heligk
        rw [processOrder_states_of_some maxHoursPerDriver a o2 k stk routek hfod2
          hroutek hstk]
        intro st' hmem hne
        rcases List.mem_or_eq_of_mem_set hmem with hmem' | rfl
        · exact ha st' hmem' hne
        · show stk.currentHours +
            ((simulateDelivery a.drivers stk o2 routek).timeSpent : ℚ) / 60 ≤ maxHoursPerDriver
          have : (simulateDelivery a.drivers stk o2 routek).timeSpent =
              routek.getEstimatedTime ((stk.driverRec a.drivers).getFatigueFactor) := rfl
          rw [this]
          exact hlek
    · intro st' hmem hne
      obtain ⟨p, -, rfl⟩ := List.mem_map.mp hmem
      exact absurd rfl hne

/-- Witness for C1: the fresh driver is selected for the medium order under
an 8-hour budget and ends the assignment within it. -/
theorem driverNeverAssignedPastMaxHours_witness :
    ((processOrder 8 (initAccum [exDriverFresh] 0) exOrderMedium).states.getD 0
        default).currentHours ≤ 8 :=
  (driverNeverAssignedPastMaxHours 8 (initAccum [exDriverFresh] 0) exOrderMedium 0
    (by norm_num [findOptimalDriver, findBest, initAccum, initDriverStates, List.enum,
      DriverState.driverRec, exDriverFresh, exOrderMedium, exRouteLow,
      RouteRec.getEstimatedTime, RouteRec.getTrafficMultiplier, DriverRec.getFatigueFactor,
      calculateDriverScore, jround])).2.1

/-- **C3 (amended).** For every order the engine selects the eligible driver
with the strictly highest suitability score *provided that score exceeds
the initial `bestScore` of −1*, the first-scanned driver winning exact
ties; the order is dropped (the loop state unchanged) if and only if no
eligible driver with score above −1 exists.  An eligible driver whose
score is ≤ −1 is never selected. -/
theorem orderAssignedToStrictlyHighestScorer (drivers : List DriverRec)
    (states : List DriverState) (o : OrderRec) (maxHoursPerDriver : ℚ) :
    (findOptimalDriver drivers states o maxHoursPerDriver = none ↔
      ∀ st ∈ states, ¬(driverEligible drivers o maxHoursPerDriver st ∧
        -1 < scoreOf drivers o st)) ∧
    (∀ i, findOptimalDriver drivers states o maxHoursPerDriver = some i →
      ∃ st, states[i]? = some st ∧ driverEligible drivers o maxHoursPerDriver st ∧
        -1 < scoreOf drivers o st ∧
        (∀ (j : ℕ) (st' : DriverState), states[j]? = some st' →
          driverEligible drivers o maxHoursPerDriver st' →
          scoreOf drivers o st' ≤ scoreOf drivers o st) ∧
        (∀ (j : ℕ) (st' : DriverState), states[j]? = some st' →
          driverEligible drivers o maxHoursPerDriver st' → j < i →
          scoreOf drivers o st' < scoreOf drivers o st)) ∧
    (∀ acc : SimAccum, acc.drivers = drivers → acc.states = states →
      findOptimalDriver drivers states o maxHoursPerDriver = none →
      processOrder maxHoursPerDriver acc o = acc) := by
  refine ⟨findOptimalDriver_none_iff drivers states o maxHoursPerDriver,
    fun i h => findOptimalDriver_some drivers states o maxHoursPerDriver i h, ?_⟩
  intro acc h1 h2 hnone
  subst h1
  subst h2
  simp [processOrder, hnone]

/-- **C3 counterexample.** `exStateLowRating` is eligible for
`exOrderMedium` under a 24-hour budget (13 + 90/60 ≤ 24) but its
suitability score is −20 ≤ −1, so `findOptimalDriver` returns `null` and
the order is dropped even though an eligible driver exists: "the order is
dropped if and only if no eligible driver exists" fails on this input. -/
theorem orderDroppedDespiteEligibleDriver :
    findOptimalDriver [exDriverLowRating] [exStateLowRating] exOrderMedium 24 = none ∧
    driverEligible [exDriverLowRating] exOrderMedium 24 exStateLowRating := by
  constructor
  · norm_num [findOptimalDriver, findBest, List.enum, DriverState.driverRec,
      exDriverLowRating, exStateLowRating, exOrderMedium, exRouteLow,
      RouteRec.getEstimatedTime, RouteRec.getTrafficMultiplier, DriverRec.getFatigueFactor,
      calculateDriverScore, jround]
  · refine ⟨exRouteLow, rfl, ?_⟩
    norm_num [exStateLowRating, exRouteLow, DriverState.driverRec, exDriverLowRating,
      RouteRec.getEstimatedTime, RouteRec.getTrafficMultiplier, DriverRec.getFatigueFactor,
      jround]

/-- Witness for the amended C3: on the concrete dropped order the loop state
is unchanged. -/
theorem orderAssignedToStrictlyHighestScorer_witness :
    processOrder 24 (initAccum [exDriverLowRating] 0) exOrderMedium =
      initAccum [exDriverLowRating] 0 :=
  (orderAssignedToStrictlyHighestScorer [exDriverLowRating] [exStateLowRating]
    exOrderMedium 24).2.2 (initAccum [exDriverLowRating] 0) rfl rfl
    (by norm_num [findOptimalDriver, findBest, List.enum, DriverState.driverRec,
      exDriverLowRating, exStateLowRating, exOrderMedium, exRouteLow,
      RouteRec.getEstimatedTime, RouteRec.getTrafficMultiplier, DriverRec.getFatigueFactor,
      calculateDriverScore, jround])

/-- **C2 (amended).** The fatigue factor the delivery simulator applies
comes from the driver *record's* `currentShiftHours` snapshot
(`driver.getFatigueFactor()`), not from the per-run state's cumulative
`currentHours`; consequently the simulator's output is invariant under any
change of `driverState.currentHours`, so a driver's fatigue cannot change
between their first and later simulated deliveries within one run. -/
theorem fatigueComesFromShiftHoursSnapshot (drivers : List DriverRec)
    (driverState : DriverState) (order : OrderRec) (route : RouteRec) :
    (simulateDelivery drivers driverState order route).fatigueFactor =
      round2 (fatigueFactorFn ((driverState.driverRec drivers).currentShiftHours)) ∧
    ∀ h : ℚ, simulateDelivery drivers { driverState with currentHours := h } order route =
      simulateDelivery drivers driverState order route :=
  ⟨rfl, fun _ => rfl⟩

/-- **C2 counterexample.** In a mid-run state with `currentHours = 6` for a
driver whose record says 4 shift hours, the simulator applies fatigue 1.0
(from the record), while `fatigueFactor(driverState.currentHours)` would
be 1.1: the claimed equality fails. -/
theorem fatigueFromSimulatedHoursCounterexample :
    (simulateDelivery [exDriverShift4] exStateSixHours exOrderMedium
      exRouteLow).fatigueFactor = 1 ∧
    round2 (fatigueFactorFn exStateSixHours.currentHours) = 11/10 ∧
    (simulateDelivery [exDriverShift4] exStateSixHours exOrderMedium
      exRouteLow).fatigueFactor ≠
      round2 (fatigueFactorFn exStateSixHours.currentHours) := by
  norm_num [simulateDelivery, DriverState.driverRec, exDriverShift4, exStateSixHours,
    exOrderMedium, exRouteLow, DriverRec.getFatigueFactor, fatigueFactorFn, round2, jround]

/-- Each loop iteration keeps the running totals equal to the sums of the
per-delivery *rounded* `profit` and `fuelCost` fields in `orderResults`. -/
theorem processOrder_totals_inv (maxHoursPerDriver : ℚ) (acc : SimAccum) (o : OrderRec)
    (h1 : acc.totalProfit = ((acc.orderResults.map (·.profit)).sum : ℚ))
    (h2 : acc.totalFuelCost = ((acc.orderResults.map (·.fuelCost)).sum : ℚ)) :
    (processOrder maxHoursPerDriver acc o).totalProfit =
      (((processOrder maxHoursPerDriver acc o).orderResults.map (·.profit)).sum : ℚ) ∧
    (processOrder maxHoursPerDriver acc o).totalFuelCost =
      (((processOrder maxHoursPerDriver acc o).orderResults.map (·.fuelCost)).sum : ℚ) := by
  rcases hfod : findOptimalDriver acc.drivers acc.states o maxHoursPerDriver with _ | i
  · constructor <;> simp [processOrder, hfod, h1, h2]
  · rcases hroute : o.assignedRoute with _ | route
    · constructor <;> simp [processOrder, hfod, hroute, h1, h2]
    · rcases hst : acc.states[i]? with _ | st
      · constructor <;> simp [processOrder, hfod, hroute, hst, h1, h2]
      · constructor <;> simp [processOrder, hfod, hroute, hst, h1, h2]

/-- A sum of cast per-delivery profits is the cast of the integer sum. -/
theorem sum_map_profit_cast (l : List DeliveryResult) :
    (l.map (fun x => (x.profit : ℚ))).sum = (((l.map (·.profit)).sum : ℤ) : ℚ) := by
  induction l with
  | nil => simp
  | cons a l ih => simp [ih]

/-- A sum of cast per-delivery fuel costs is the cast of the integer sum. -/
theorem sum_map_fuelCost_cast (l : List DeliveryResult) :
    (l.map (fun x => (x.fuelCost : ℚ))).sum = (((l.map (·.fuelCost)).sum : ℤ) : ℚ) := by
  induction l with
  | nil => simp
  | cons a l ih => simp [ih]

/-- **C5 (amended).** The final `totalProfit` and `totalFuelCost` are the
sums of the *per-delivery rounded* `profit` and `fuelCost` values — each
delivery's profit and fuel cost are rounded inside `simulateDelivery`
before being accumulated — and the final `Math.round` is an identity on
these integer sums.  (Per-delivery rounding therefore does enter the
accumulation.) -/
theorem totalsAreSumsOfRoundedPerDeliveryValues (drivers : List DriverRec)
    (orders : List OrderRec) (maxHoursPerDriver : ℚ) (simulationStartTime : ℤ) :
    (performDeliverySimulation drivers orders maxHoursPerDriver
        simulationStartTime).totalProfit =
      ((performDeliverySimulation drivers orders maxHoursPerDriver
        simulationStartTime).orderResults.map (·.profit)).sum ∧
    (performDeliverySimulation drivers orders maxHoursPerDriver
        simulationStartTime).totalFuelCost =
      ((performDeliverySimulation drivers orders maxHoursPerDriver
        simulationStartTime).orderResults.map (·.fuelCost)).sum := by
  obtain ⟨hp, hf⟩ := foldl_preserves (processOrder maxHoursPerDriver)
    (fun a => a.totalProfit = ((a.orderResults.map (·.profit)).sum : ℚ) ∧
      a.totalFuelCost = ((a.orderResults.map (·.fuelCost)).sum : ℚ))
    (fun a o ha => processOrder_totals_inv maxHoursPerDriver a o ha.1 ha.2)
    (sortOrders orders) (initAccum drivers simulationStartTime) (by simp [initAccum])
  constructor
  · show jround ((performDeliverySimulationAccum drivers orders maxHoursPerDriver
        simulationStartTime).totalProfit) =
      ((performDeliverySimulationAccum drivers orders maxHoursPerDriver
        simulationStartTime).orderResults.map (·.profit)).sum
    rw [show performDeliverySimulationAccum drivers orders maxHoursPerDriver
        simulationStartTime = (sortOrders orders).foldl (processOrder maxHoursPerDriver)
        (initAccum drivers simulationStartTime) from rfl, hp,
      sum_map_profit_cast, jround_intCast]
  · show jround ((performDeliverySimulationAccum drivers orders maxHoursPerDriver
        simulationStartTime).totalFuelCost) =
      ((performDeliverySimulationAccum drivers orders maxHoursPerDriver
        simulationStartTime).orderResults.map (·.fuelCost)).sum
    rw [show performDeliverySimulationAccum drivers orders maxHoursPerDriver
        simulationStartTime = (sortOrders orders).foldl (processOrder maxHoursPerDriver)
        (initAccum drivers simulationStartTime) from rfl, hf,
      sum_map_fuelCost_cast, jround_intCast]

/-- **C4 (code bug).** The assignment loop accumulates
`deliveryResult.earnings`, but the result object's field is named
`driverEarnings`, so the read yields `undefined` and the per-driver
`totalEarnings` becomes `NaN` (`none`) after the first assignment; the
rounded sum of the per-delivery `(actualTime/60) * hourlyRate` values for
the same run is the plain number 150. -/
theorem perDriverTotalEarningsIsNaN :
    (performDeliverySimulation [exDriverFresh] [exOrderMedium] 8 0).driverPerformance.map
      (·.totalEarnings) = [none] ∧
    jround (((performDeliverySimulation [exDriverFresh] [exOrderMedium] 8
      0).orderResults.map (fun r => (r.timeSpent : ℚ) / 60 * exDriverFresh.hourlyRate)).sum)
      = 150 := by
  constructor <;>
    norm_num [performDeliverySimulation, performDeliverySimulationAccum, sortOrders,
      initAccum, initDriverStates, aggregateResults, processOrder, findOptimalDriver,
      findBest, List.enum, DriverState.driverRec, exDriverFresh, exOrderMedium, exRouteLow,
      RouteRec.getEstimatedTime, RouteRec.getTrafficMultiplier, DriverRec.getFatigueFactor,
      calculateDriverScore, simulateDelivery, jround, jroundOpt, jsAdd,
      DeliveryResult.earnings, OrderRec.calculateDeliveryBonus, OrderRec.isLate,
      RouteRec.calculateFuelCost, round2, calculateDriverEfficiency]

/-- **C5 counterexample.** Two deliveries each with exact fuel cost 10.4:
the engine accumulates the per-delivery rounded values (10 + 10) and
reports 20, while the once-rounded full-precision sum required by the
claim is round(20.8) = 21. -/
theorem perDeliveryRoundingEntersAccumulation :
    (performDeliverySimulation [exDriverFresh] [exOrderA, exOrderB] 24 0).totalFuelCost
      = 20 ∧
    jround (specFullPrecisionTotals [exDriverFresh] [exOrderA, exOrderB] 24 0).2 = 21 := by
  have hs : sortOrders [exOrderA, exOrderB] = [exOrderA, exOrderB] :=
    List.mergeSort_of_sorted (by
      norm_num [List.pairwise_cons, orderLe, priorityWeight, exOrderA, exOrderB])
  simp only [exOrderA, exOrderB, exRouteCheap] at hs
  constructor <;>
    norm_num [performDeliverySimulation, performDeliverySimulationAccum,
      specFullPrecisionTotals, hs, initAccum, initDriverStates, aggregateResults,
      processOrder, processOrderFullPrecision, findOptimalDriver, findBest, List.enum,
      DriverState.driverRec, exDriverFresh, exOrderA, exOrderB, exRouteCheap,
      RouteRec.getEstimatedTime, RouteRec.getTrafficMultiplier, DriverRec.getFatigueFactor,
      calculateDriverScore, simulateDelivery, simulateDeliveryProfitFull, jround, jsAdd,
      DeliveryResult.earnings, OrderRec.calculateDeliveryBonus, OrderRec.isLate,
      RouteRec.calculateFuelCost, round2, calculateDriverEfficiency, jroundOpt]

/-- The comparator relation of the order sort is transitive. -/
theorem orderLe_trans : ∀ a b c : OrderRec, orderLe a b = true → orderLe b c = true →
    orderLe a c = true := by
  intro a b c hab hbc
  rw [orderLe, decide_eq_true_iff] at hab hbc ⊢
  rcases hab with h1 | ⟨h1, h1'⟩ <;> rcases hbc with h2 | ⟨h2, h2'⟩
  · exact Or.inl (lt_trans h2 h1)
  · exact Or.inl (by rw [← h2]; exact h1)
  · exact Or.inl (by rw [h1]; exact h2)
  · exact Or.inr ⟨h1.trans h2, h2'.trans h1'⟩

/-- The comparator relation of the order sort is total. -/
theorem orderLe_total : ∀ a b : OrderRec, (orderLe a b || orderLe b a) = true := by
  intro a b
  rw [Bool.or_eq_true, orderLe, orderLe, decide_eq_true_iff, decide_eq_true_iff]
  rcases lt_trichotomy (priorityWeight a.priority) (priorityWeight b.priority) with h | h | h
  · exact Or.inr (Or.inl h)
  · rcases le_total b.valueRs a.valueRs with hv | hv
    · exact Or.inl (Or.inr ⟨h, hv⟩)
    · exact Or.inr (Or.inr ⟨h.symm, hv⟩)
  · exact Or.inl (Or.inl h)

/-- **C8.** The engine's order sort is by priority weight descending with
ties broken by `valueRs` descending, is a permutation of the input queue,
and is stable: two orders with identical priority weight and identical
`valueRs` retain their relative input order in the processed queue. -/
theorem orderSortIsStableByPriorityThenValue (l : List OrderRec) :
    (sortOrders l).Pairwise (fun a b =>
      priorityWeight b.priority < priorityWeight a.priority ∨
        (priorityWeight a.priority = priorityWeight b.priority ∧ b.valueRs ≤ a.valueRs)) ∧
    (sortOrders l).Perm l ∧
    (∀ a b : OrderRec, [a, b].Sublist l →
      priorityWeight a.priority = priorityWeight b.priority → a.valueRs = b.valueRs →
      [a, b].Sublist (sortOrders l)) := by
  refine ⟨?_, List.mergeSort_perm l orderLe, ?_⟩
  · exact (List.sorted_mergeSort orderLe_trans orderLe_total l).imp
      fun h => decide_eq_true_iff.mp h
  · intro a b hsub hw hv
    refine List.sublist_mergeSort orderLe_trans orderLe_total ?_ hsub
    refine List.pairwise_cons.mpr ⟨?_, List.pairwise_singleton _ _⟩
    intro c hc
    obtain rfl : c = b := List.mem_singleton.mp hc
    rw [orderLe, decide_eq_true_iff]
    exact Or.inr ⟨hw, le_of_eq hv.symm⟩

/-- Witness for C8: `exOrderA` and `exOrderB` have identical priority and
value, and their relative order survives the sort. -/
theorem orderSortIsStable_witness :
    [exOrderA, exOrderB].Sublist (sortOrders [exOrderA, exOrderB]) :=
  (orderSortIsStableByPriorityThenValue [exOrderA, exOrderB]).2.2 exOrderA exOrderB
    (List.Sublist.refl _) rfl rfl
